import Mathlib

/-!
Verification of the launcher provisioning core of this repository.

The repository contains two near-duplicate implementations of the same
launcher (`noobv0.py`, class `NoobLauncher`, and `samsoftbuild0a.py`,
class `NoobClientLauncher`).  Both are shallowly embedded below: pure
helpers become Lean functions, stateful routines become explicit state
passing over an association-list file system, and external effects
(network, subprocesses) become oracle parameters.  Definitions follow
the source code; where a definition instead follows the specification's
words (for a refinement comparison) its doc comment says so.
Definitions prefixed `nv` come from `noobv0.py`, definitions prefixed
`ss` come from `samsoftbuild0a.py`; unprefixed snake-case definitions
keep the name of the (unique) source function they translate.
-/

deriving instance DecidableEq for Except

namespace Launcher

/-! ## Rule model (shared data shape of both implementations)

A manifest rule is a JSON object with an optional `os` sub-object (whose
`name` key is itself optional), an optional `features` sub-object, and
an `action` string.  We model exactly the parts the code reads. -/

/-- A manifest rule.  `os = none` means the `os` key is absent;
`os = some none` means an `os` object without a `name` key;
`os = some (some n)` means an `os` object with `name = n`.
`features = true` means a `features` key is present. -/
structure MCRule where
  os : Option (Option String)
  features : Bool
  action : String
  deriving DecidableEq, Repr

/-- From `samsoftbuild0a.py` `matches_conditions` (lines 859–865):
returns `False` when an `os` object is present whose `name` is absent or
differs from the current OS, or when a `features` key is present. -/
def matches_conditions (rule : MCRule) (osName : String) : Bool :=
  let osBlocks : Bool :=
    match rule.os with
    | some (some n) => n != osName
    | some none => true
    | none => false
  if osBlocks then false
  else if rule.features then false
  else true

/-- Scan of `samsoftbuild0a.py` `should_include`'s `for` loop: the first
rule satisfying `matches_conditions` decides via `action == "allow"`;
falling off the loop returns `False`. -/
def shouldIncludeScan (osName : String) : List MCRule → Bool
  | [] => false
  | r :: rest =>
    if matches_conditions r osName then r.action == "allow" else shouldIncludeScan osName rest

/-- From `samsoftbuild0a.py` `should_include` (lines 867–874). -/
def should_include (rules : List MCRule) (osName : String) : Bool :=
  if rules.isEmpty then true else shouldIncludeScan osName rules

/-- Scan of `noobv0.py` `apply_rules`'s `for` loop: a rule whose
`os.name` (when present) equals the current OS and whose action is
`disallow` returns `False`; otherwise the scan continues and falling off
the loop returns `True`.  The `features` key is never consulted. -/
def applyRulesScan (osName : String) : List MCRule → Bool
  | [] => true
  | r :: rest =>
    let osMatch : Bool :=
      match r.os with
      | some (some n) => n == osName
      | some none => true
      | none => true
    if osMatch && r.action == "disallow" then false else applyRulesScan osName rest

/-- From `noobv0.py` `apply_rules` (lines 638–649). -/
def apply_rules (rules : List MCRule) (osName : String) : Bool :=
  if rules.isEmpty then true else applyRulesScan osName rules

/-- Modelled from the spec (§4.1), for refinement comparison with the
two source evaluators: a rule matches when it carries no feature
condition and its OS condition is absent or names the current OS. -/
def specRuleMatches (rule : MCRule) (osName : String) : Bool :=
  if rule.features then false
  else
    match rule.os with
    | none => true
    | some (some n) => n == osName
    | some none => false

/-- Scan part of the spec-side evaluator. -/
def specIncludedScan (osName : String) : List MCRule → Bool
  | [] => false
  | r :: rest =>
    if specRuleMatches r osName then r.action == "allow" else specIncludedScan osName rest

/-- Modelled from the spec (§4.1), for refinement comparison: no rules ⇒
included; otherwise the first matching rule decides via its action; no
matching rule ⇒ excluded. -/
def specIncluded (rules : List MCRule) (osName : String) : Bool :=
  if rules.isEmpty then true else specIncludedScan osName rules

/-! ## Hashes and offline UUIDs

Executable MD5 and SHA-1 over byte lists (`Nat` values below 256), used
by the two `generate_offline_uuid` implementations. -/

def w32 (n : Nat) : Nat := n % 4294967296

def compl32 (n : Nat) : Nat := Nat.xor n 4294967295

def rotl32 (x s : Nat) : Nat := w32 (Nat.lor (x <<< s) (x >>> (32 - s)))

def leBytes : Nat → Nat → List Nat
  | 0, _ => []
  | k + 1, v => (v % 256) :: leBytes k (v / 256)

def beBytes : Nat → Nat → List Nat
  | 0, _ => []
  | k + 1, v => beBytes k (v / 256) ++ [v % 256]

def leWord (bs : List Nat) : Nat := bs.foldr (fun b acc => b + 256 * acc) 0

def beWord (bs : List Nat) : Nat := bs.foldl (fun acc b => acc * 256 + b) 0

/-- UTF-8 bytes of an ASCII string (all strings hashed here are ASCII,
where UTF-8 bytes and code points coincide). -/
def strBytes (s : String) : List Nat := s.data.map Char.toNat

def md5KTable : List Nat :=
  [3614090360, 3905402710, 606105819, 3250441966, 4118548399, 1200080426, 2821735955,
   4249261313, 1770035416, 2336552879, 4294925233, 2304563134, 1804603682, 4254626195,
   2792965006, 1236535329, 4129170786, 3225465664, 643717713, 3921069994, 3593408605,
   38016083, 3634488961, 3889429448, 568446438, 3275163606, 4107603335, 1163531501,
   2850285829, 4243563512, 1735328473, 2368359562, 4294588738, 2272392833, 1839030562,
   4259657740, 2763975236, 1272893353, 4139469664, 3200236656, 681279174, 3936430074,
   3572445317, 76029189, 3654602809, 3873151461, 530742520, 3299628645, 4096336452,
   1126891415, 2878612391, 4237533241, 1700485571, 2399980690, 4293915773, 2240044497,
   1873313359, 4264355552, 2734768916, 1309151649, 4149444226, 3174756917, 718787259,
   3951481745]

def md5STable : List Nat :=
  [7, 12, 17, 22, 7, 12, 17, 22, 7, 12, 17, 22, 7, 12, 17, 22,
   5, 9, 14, 20, 5, 9, 14, 20, 5, 9, 14, 20, 5, 9, 14, 20,
   4, 11, 16, 23, 4, 11, 16, 23, 4, 11, 16, 23, 4, 11, 16, 23,
   6, 10, 15, 21, 6, 10, 15, 21, 6, 10, 15, 21, 6, 10, 15, 21]

def md5Pad (msg : List Nat) : List Nat :=
  let l := msg.length
  let zeros := (119 - l % 64) % 64
  msg ++ [128] ++ List.replicate zeros 0 ++ leBytes 8 (l * 8)

def md5Compress (st : Nat × Nat × Nat × Nat) (block : List Nat) : Nat × Nat × Nat × Nat :=
  let M : Nat → Nat := fun g => leWord ((block.drop (4 * g)).take 4)
  let step : Nat × Nat × Nat × Nat → Nat → Nat × Nat × Nat × Nat := fun st i =>
    let (a, b, c, d) := st
    let fg : Nat × Nat :=
      if i < 16 then (Nat.lor (Nat.land b c) (Nat.land (compl32 b) d), i)
      else if i < 32 then (Nat.lor (Nat.land d b) (Nat.land (compl32 d) c), (5 * i + 1) % 16)
      else if i < 48 then (Nat.xor b (Nat.xor c d), (3 * i + 5) % 16)
      else (Nat.xor c (Nat.lor b (compl32 d)), (7 * i) % 16)
    let sum := w32 (a + fg.1 + md5KTable.getD i 0 + M fg.2)
    (d, w32 (b + rotl32 sum (md5STable.getD i 0)), b, c)
  let r := (List.range 64).foldl step st
  (w32 (st.1 + r.1), w32 (st.2.1 + r.2.1), w32 (st.2.2.1 + r.2.2.1), w32 (st.2.2.2 + r.2.2.2))

def md5Blocks (st : Nat × Nat × Nat × Nat) (bs : List Nat) : Nat × Nat × Nat × Nat :=
  (List.range (bs.length / 64)).foldl (fun st i => md5Compress st ((bs.drop (64 * i)).take 64)) st

/-- MD5 digest (16 bytes) of a byte sequence. -/
def md5 (msg : List Nat) : List Nat :=
  let r := md5Blocks (1732584193, 4023233417, 2562383102, 271733878) (md5Pad msg)
  leBytes 4 r.1 ++ leBytes 4 r.2.1 ++ leBytes 4 r.2.2.1 ++ leBytes 4 r.2.2.2

def sha1Pad (msg : List Nat) : List Nat :=
  let l := msg.length
  let zeros := (119 - l % 64) % 64
  msg ++ [128] ++ List.replicate zeros 0 ++ beBytes 8 (l * 8)

def sha1Expand (w16 : List Nat) : List Nat :=
  (List.range 64).foldl
    (fun ws _ =>
      let n := ws.length
      ws ++ [rotl32 (Nat.xor (ws.getD (n - 3) 0)
        (Nat.xor (ws.getD (n - 8) 0) (Nat.xor (ws.getD (n - 14) 0) (ws.getD (n - 16) 0)))) 1])
    w16

def sha1Compress (st : Nat × Nat × Nat × Nat × Nat) (block : List Nat) :
    Nat × Nat × Nat × Nat × Nat :=
  let w16 := (List.range 16).map (fun g => beWord ((block.drop (4 * g)).take 4))
  let w := sha1Expand w16
  let step : Nat × Nat × Nat × Nat × Nat → Nat → Nat × Nat × Nat × Nat × Nat := fun st i =>
    let (a, b, c, d, e) := st
    let fk : Nat × Nat :=
      if i < 20 then (Nat.lor (Nat.land b c) (Nat.land (compl32 b) d), 1518500249)
      else if i < 40 then (Nat.xor b (Nat.xor c d), 1859775393)
      else if i < 60 then
        (Nat.lor (Nat.land b c) (Nat.lor (Nat.land b d) (Nat.land c d)), 2400959708)
      else (Nat.xor b (Nat.xor c d), 3395469782)
    let temp := w32 (rotl32 a 5 + fk.1 + e + fk.2 + w.getD i 0)
    (temp, a, rotl32 b 30, c, d)
  let r := (List.range 80).foldl step st
  (w32 (st.1 + r.1), w32 (st.2.1 + r.2.1), w32 (st.2.2.1 + r.2.2.1),
   w32 (st.2.2.2.1 + r.2.2.2.1), w32 (st.2.2.2.2 + r.2.2.2.2))

def sha1Blocks (st : Nat × Nat × Nat × Nat × Nat) (bs : List Nat) :
    Nat × Nat × Nat × Nat × Nat :=
  (List.range (bs.length / 64)).foldl
    (fun st i => sha1Compress st ((bs.drop (64 * i)).take 64)) st

/-- SHA-1 digest (20 bytes) of a byte sequence. -/
def sha1 (msg : List Nat) : List Nat :=
  let r := sha1Blocks (1732584193, 4023233417, 2562383102, 271733878, 3285377520)
    (sha1Pad msg)
  beBytes 4 r.1 ++ beBytes 4 r.2.1 ++ beBytes 4 r.2.2.1 ++ beBytes 4 r.2.2.2.1 ++
    beBytes 4 r.2.2.2.2

def hexDigit (n : Nat) : Char := if n < 10 then Char.ofNat (48 + n) else Char.ofNat (87 + n)

def byteHex (b : Nat) : List Char := [hexDigit (b / 16), hexDigit (b % 16)]

/-- Lowercase hex rendering of a byte list. -/
def bytesHex (bs : List Nat) : String := String.mk (bs.map byteHex).flatten

/-- From `noobv0.py` `generate_offline_uuid` (lines 403–410): MD5 of
`OfflinePlayer:` + username, version and variant bits forced on bytes 6
and 8, rendered by `uuid.UUID` as a canonical 8-4-4-4-12 UUID string. -/
def nvOfflineUuid (username : String) : String :=
  let d0 := md5 (strBytes ("OfflinePlayer:" ++ username))
  let d1 := d0.set 6 (Nat.lor (Nat.land (d0.getD 6 0) 15) 48)
  let d2 := d1.set 8 (Nat.lor (Nat.land (d1.getD 8 0) 63) 128)
  bytesHex (d2.take 4) ++ "-" ++ bytesHex ((d2.drop 4).take 2) ++ "-" ++
    bytesHex ((d2.drop 6).take 2) ++ "-" ++ bytesHex ((d2.drop 8).take 2) ++ "-" ++
    bytesHex (d2.drop 10)

/-- From `samsoftbuild0a.py` `generate_offline_uuid` (lines 881–885):
SHA-1 hex digest of `OfflinePlayer:` + username sliced as
`[:8]-[8:12]-[12:16]-[16:20]-[20:]`, so the final group keeps all
remaining 20 hex characters. -/
def ssOfflineUuid (username : String) : String :=
  let cs := (bytesHex (sha1 (strBytes ("OfflinePlayer:" ++ username)))).data
  String.mk (cs.take 8) ++ "-" ++ String.mk ((cs.drop 8).take 4) ++ "-" ++
    String.mk ((cs.drop 12).take 4) ++ "-" ++ String.mk ((cs.drop 16).take 4) ++ "-" ++
    String.mk (cs.drop 20)

/-! ## File system and network model

Disk files are an association list from path strings to abstract
contents, where a content is summarized by its byte count and its
content digest (the value `hashlib.sha1(...).hexdigest()` would return
for it).  Writing shadows earlier bindings; removal drops all bindings
of a path.  A network download attempt either raises (carrying an error
code distinguishing the underlying cause) or yields a content. -/

structure Content where
  size : Nat
  digest : Nat
  deriving DecidableEq, Repr

abbrev FS := List (String × Content)

def fsGet (fs : FS) (p : String) : Option Content := List.lookup p fs

def fsHas (fs : FS) (p : String) : Bool := (fsGet fs p).isSome

def fsWrite (fs : FS) (p : String) (c : Content) : FS := (p, c) :: fs

def fsErase (fs : FS) (p : String) : FS := fs.filter (fun e => e.1 != p)

/-- Outcome of one network download attempt. -/
inductive NetResult where
  | fail (code : Nat)
  | ok (c : Content)
  deriving DecidableEq, Repr

/-- Exception raised by one attempt of `_download_with_retry`: either
the underlying network exception (with its code) or the
`ValueError("Empty download")` raised on a zero-byte result. -/
inductive AttemptErr where
  | netE (code : Nat)
  | emptyDownload
  deriving DecidableEq, Repr

/-- The exception the attempt with index `i` raises, if any: the network
failure itself, or the empty-download error on a zero-byte result. -/
def attemptErr (net : Nat → NetResult) (i : Nat) : Option AttemptErr :=
  match net i with
  | .fail code => some (.netE code)
  | .ok c => if c.size = 0 then some .emptyDownload else none

/-- From `samsoftbuild0a.py` `verify_file` (lines 655–664): SHA-1 of the
file compared to the expected digest; any exception (in particular a
missing file) yields `False`. -/
def verify_file (fs : FS) (p : String) (expected : Nat) : Bool :=
  match fsGet fs p with
  | some c => c.digest == expected
  | none => false

/-- Result of `_download_with_retry`: the loop either returns `True`
(`success`), re-raises the last attempt's exception (`raised`), or falls
off the loop returning `False` (`fellThrough`, unreachable with the
default of 3 retries). -/
inductive RetryOutcome where
  | success
  | raised (e : AttemptErr)
  | fellThrough
  deriving DecidableEq, Repr

structure RetryRes where
  out : RetryOutcome
  fs : FS
  sleeps : List Nat
  attempts : Nat
  deriving DecidableEq, Repr

/-- Loop body of `samsoftbuild0a.py` `_download_with_retry`
(lines 489–503).  `remaining` counts loop iterations left, `i` is the
current attempt index.  A successful `urlretrieve` writes the fetched
content at `path` (a raising `urlretrieve` is modelled as writing
nothing); a zero-byte result raises `ValueError`; the exception of the
final attempt is re-raised, earlier failures sleep `2 ** attempt`
seconds (recorded in `sleeps`).  No file is ever removed. -/
def dlRetryGo (net : Nat → NetResult) (p : String) :
    Nat → Nat → FS → List Nat → Nat → RetryRes
  | 0, _, fs, sl, att => ⟨.fellThrough, fs, sl, att⟩
  | r + 1, i, fs, sl, att =>
    match net i with
    | .fail code =>
      if r = 0 then ⟨.raised (.netE code), fs, sl, att + 1⟩
      else dlRetryGo net p r (i + 1) fs (sl ++ [2 ^ i]) (att + 1)
    | .ok c =>
      let fs' := fsWrite fs p c
      if c.size = 0 then
        if r = 0 then ⟨.raised .emptyDownload, fs', sl, att + 1⟩
        else dlRetryGo net p r (i + 1) fs' (sl ++ [2 ^ i]) (att + 1)
      else ⟨.success, fs', sl, att + 1⟩

/-- From `samsoftbuild0a.py` `_download_with_retry` with its default
`max_retries = 3`. -/
def downloadWithRetry (net : Nat → NetResult) (fs : FS) (p : String) : RetryRes :=
  dlRetryGo net p 3 0 fs [] 0

/-- Exception raised by `noobv0.py` `_download_asset`. -/
inductive NvAssetErr where
  | netE (code : Nat)
  | hashMismatch
  deriving DecidableEq, Repr

/-- From `noobv0.py` `_download_asset` (lines 717–729): a single
download attempt (no retry); a hash mismatch removes the file and
raises; the `except` block removes the file (if present) before
re-raising any exception. -/
def nvDownloadAsset (net1 : NetResult) (expected : Nat) (fs : FS) (p : String) :
    Option NvAssetErr × FS :=
  match net1 with
  | .fail code => (some (.netE code), if fsHas fs p then fsErase fs p else fs)
  | .ok c =>
    let fs1 := fsWrite fs p c
    if c.digest != expected then (some .hashMismatch, fsErase fs1 p)
    else (none, fs1)

/-- Result of the artifact portion of `_download_library`:
`Except.error` models an exception propagating out of the worker task,
`.ok false` the explicit `return False` paths, `.ok true` success.
`netUsed` records whether any network request was made. -/
structure SsFetchRes where
  result : Except AttemptErr Bool
  fs : FS
  netUsed : Bool
  deriving DecidableEq, Repr

/-- From `samsoftbuild0a.py` `_download_library`, artifact portion
(lines 754–764): network I/O is skipped when the file exists and either
no hash is expected or `verify_file` succeeds; otherwise
`_download_with_retry` runs, a `fellThrough` result returns `False`, a
raised exception propagates, and a post-download hash mismatch returns
`False`. -/
def ssFetchArtifact (net : Nat → NetResult) (fs : FS) (p : String) (sha : Option Nat) :
    SsFetchRes :=
  if fsHas fs p && (match sha with | none => true | some h => verify_file fs p h) then
    ⟨.ok true, fs, false⟩
  else
    let r := downloadWithRetry net fs p
    match r.out with
    | .success =>
      match sha with
      | some h =>
        if verify_file r.fs p h then ⟨.ok true, r.fs, true⟩ else ⟨.ok false, r.fs, true⟩
      | none => ⟨.ok true, r.fs, true⟩
    | .raised e => ⟨.error e, r.fs, true⟩
    | .fellThrough => ⟨.ok false, r.fs, true⟩

/-! ## Library materialization -/

/-- Kernel-computable `str.startswith`: prefix test on code points. -/
def strStartsWith (s pre : String) : Bool := pre.data.isPrefixOf s.data

/-- Kernel-computable single-character `str.split`, keeping empty
pieces, via an accumulator over the code points. -/
def splitCharGo (sep : Char) : List Char → List Char → List String
  | [], acc => [String.mk acc.reverse]
  | c :: cs, acc =>
    if c == sep then String.mk acc.reverse :: splitCharGo sep cs []
    else splitCharGo sep cs (c :: acc)

def splitChar (sep : Char) (s : String) : List String := splitCharGo sep s.data []

/-- Replace every dot by a slash, as `group.replace(".", "/")` does. -/
def dotsToSlashes (s : String) : String :=
  String.mk (s.data.map (fun c => if c == '.' then '/' else c))

/-- Relative on-disk path `noobv0.py` computes for a library
(line 582): note only three components, without a version directory. -/
def nvLibRelPath (g a v : String) : String :=
  dotsToSlashes g ++ "/" ++ a ++ "/" ++ a ++ "-" ++ v ++ ".jar"

/-- Relative maven-style path `samsoftbuild0a.py` computes
(four components, lines 755–756 and 922–926). -/
def ssLibRelPath (g a v : String) : String :=
  dotsToSlashes g ++ "/" ++ a ++ "/" ++ v ++ "/" ++ a ++ "-" ++ v ++ ".jar"

/-- The `downloads.artifact` object of a library entry. -/
structure LibArtifact where
  url : String
  path : String
  sha1 : Option Nat
  deriving DecidableEq, Repr

/-- A manifest library entry, restricted to the fields the library
installers read: the split `name`, the `rules` list, and the optional
`downloads.artifact` object.  (The per-OS `natives` classifiers are
modelled separately with the extraction routines.) -/
structure LibEntry where
  nameParts : List String
  rules : List MCRule
  artifact : Option LibArtifact
  deriving DecidableEq, Repr

/-- Artifact-fetch step of `noobv0.py` `install_libraries`
(lines 585–607), for a library whose computed local path is `p`: when
the file exists nothing happens; otherwise, with a `downloads.artifact`
object, the URL is `url + path` and a present `sha1` is checked after
the download, removing the file on mismatch; without one, a fallback
URL is tried with no hash check at all.  Any download exception is
swallowed (`continue`).  The second component reports whether the
network was used. -/
def nvFetchArtifact (net : String → NetResult) (fs : FS) (p : String)
    (art : Option LibArtifact) : FS × Bool :=
  if fsHas fs p then (fs, false)
  else
    match art with
    | some a =>
      match net (a.url ++ a.path) with
      | .fail _ => (fs, true)
      | .ok c =>
        let fs1 := fsWrite fs p c
        match a.sha1 with
        | some h => if c.digest != h then (fsErase fs1 p, true) else (fs1, true)
        | none => (fs1, true)
    | none =>
      match net ("https://libraries.minecraft.net/" ++ p) with
      | .fail _ => (fs, true)
      | .ok c => (fsWrite fs p c, true)

/-- One iteration of the `noobv0.py` `install_libraries` loop
(lines 575–609): rule-excluded entries and entries with fewer than three
name parts are skipped; otherwise the artifact is fetched if missing and
the local path is appended to `lib_paths` exactly when the file exists
afterwards.  A failed or hash-mismatched download therefore silently
drops the entry. -/
def nvProcessLib (osName : String) (net : String → NetResult) (fs : FS) (lib : LibEntry) :
    FS × Option String :=
  if !apply_rules lib.rules osName then (fs, none)
  else
    match lib.nameParts with
    | g :: a :: v :: _ =>
      let p := nvLibRelPath g a v
      let fs' := (nvFetchArtifact net fs p lib.artifact).1
      (fs', if fsHas fs' p then some p else none)
    | _ => (fs, none)

/-- Loop of `noobv0.py` `install_libraries` over the manifest entries,
threading the disk state and the accumulated `lib_paths`. -/
def nvInstallGo (osName : String) (net : String → NetResult) :
    FS → List String → List LibEntry → FS × List String
  | fs, acc, [] => (fs, acc)
  | fs, acc, lib :: rest =>
    let r := nvProcessLib osName net fs lib
    nvInstallGo osName net r.1 (acc ++ r.2.toList) rest

/-- The classpath loop of `noobv0.py` `install_libraries`
(lines 569–609).  The function always returns normally; it has no
failure channel. -/
def nvInstallLibraries (osName : String) (net : String → NetResult) (fs : FS)
    (libs : List LibEntry) : FS × List String :=
  nvInstallGo osName net fs [] libs

/-- From `samsoftbuild0a.py` `is_library_allowed` (lines 876–879). -/
def is_library_allowed (lib : LibEntry) (osName : String) : Bool :=
  should_include lib.rules osName

/-- Destination path of a library in `_download_library` (line 756):
the explicit `downloads.artifact.path` when present, else the
maven-style path. -/
def ssLibDest (lib : LibEntry) : Option String :=
  match lib.nameParts with
  | g :: a :: v :: _ =>
    some (match lib.artifact with | some art => art.path | none => ssLibRelPath g a v)
  | _ => none

/-- From `samsoftbuild0a.py` `_download_library`, artifact portion
(lines 745–764): entries with fewer than three name parts return `True`
immediately; otherwise `ssFetchArtifact` runs against the computed
destination. -/
def ssDownloadLibrary (net : Nat → NetResult) (fs : FS) (lib : LibEntry) : SsFetchRes :=
  match lib.nameParts with
  | g :: a :: v :: _ =>
    let p := match lib.artifact with | some art => art.path | none => ssLibRelPath g a v
    ssFetchArtifact net fs p (lib.artifact.bind (·.sha1))
  | _ => ⟨.ok true, fs, false⟩

/-- Result gathering of `samsoftbuild0a.py` `download_version_files`
(lines 731–740): rule-excluded entries are never submitted; the results
of submitted tasks are inspected in submission order, the first `False`
returns `False` for the whole call and a task exception propagates.
The worker tasks run concurrently against the shared cache and touch
pairwise distinct destination paths, so each task is modelled as
reading the initial disk state; the per-library attempt oracle is keyed
by the entry itself. -/
def ssGatherResults (osName : String) (nets : LibEntry → Nat → NetResult) (fs0 : FS) :
    List LibEntry → Except AttemptErr Bool
  | [] => .ok true
  | lib :: rest =>
    if is_library_allowed lib osName then
      match (ssDownloadLibrary (nets lib) fs0 lib).result with
      | .error e => .error e
      | .ok false => .ok false
      | .ok true => ssGatherResults osName nets fs0 rest
    else ssGatherResults osName nets fs0 rest

/-- The library phase of `samsoftbuild0a.py` `download_version_files`. -/
def ssInstallLibraries (osName : String) (nets : LibEntry → Nat → NetResult) (fs0 : FS)
    (libs : List LibEntry) : Except AttemptErr Bool :=
  ssGatherResults osName nets fs0 libs

/-- Disk effect of one library's worker task: the file-system component
of `_download_library`'s artifact portion. -/
def ssApplyLib (net : Nat → NetResult) (fs : FS) (lib : LibEntry) : FS :=
  (ssDownloadLibrary net fs lib).fs

/-- Disk state after the worker pool drains, with `order` the order in
which the submitted tasks complete. -/
def ssDownloadAll (nets : LibEntry → Nat → NetResult) : FS → List LibEntry → FS
  | fs, [] => fs
  | fs, lib :: rest => ssDownloadAll nets (ssApplyLib (nets lib) fs lib) rest

/-- Classpath construction of `samsoftbuild0a.py` `build_launch_command`
(lines 916–928), vanilla-loader path: the version JAR first, then, in
manifest order, every rule-allowed library with at least three name
parts whose maven-style path exists on disk.  (Lines 929–937 append
loader-specific extra JARs only when `loader != vanilla`.) -/
def ssClasspathLibs (osName : String) (fs : FS) : List LibEntry → List String
  | [] => []
  | lib :: rest =>
    if is_library_allowed lib osName then
      match lib.nameParts with
      | g :: a :: v :: _ =>
        let p := ssLibRelPath g a v
        if fsHas fs p then p :: ssClasspathLibs osName fs rest
        else ssClasspathLibs osName fs rest
      | _ => ssClasspathLibs osName fs rest
    else ssClasspathLibs osName fs rest

def ssClasspath (osName : String) (fs : FS) (jarPath : String) (libs : List LibEntry) :
    List String :=
  jarPath :: ssClasspathLibs osName fs libs

/-- Modelled from the spec (§4.4, §5), for refinement comparison: the
classpath a manifest should induce — the runtime JAR plus exactly the
rule-allowed well-formed libraries in manifest declaration order. -/
def manifestClasspathLibs (osName : String) : List LibEntry → List String
  | [] => []
  | lib :: rest =>
    if is_library_allowed lib osName then
      match lib.nameParts with
      | g :: a :: v :: _ => ssLibRelPath g a v :: manifestClasspathLibs osName rest
      | _ => manifestClasspathLibs osName rest
    else manifestClasspathLibs osName rest

def manifestClasspath (osName : String) (jarPath : String) (libs : List LibEntry) :
    List String :=
  jarPath :: manifestClasspathLibs osName libs

/-- Modelled from the spec (§4.4), for refinement comparison with the
`noobv0.py` loop: the `lib_paths` list a manifest should induce (the
runtime JAR is appended later by `_prepare_and_launch`). -/
def nvManifestClasspath (osName : String) : List LibEntry → List String
  | [] => []
  | lib :: rest =>
    if apply_rules lib.rules osName then
      match lib.nameParts with
      | g :: a :: v :: _ => nvLibRelPath g a v :: nvManifestClasspath osName rest
      | _ => nvManifestClasspath osName rest
    else nvManifestClasspath osName rest

/-! ## Native archive extraction

Paths on disk are modelled as segment lists here, so that `..`
resolution is observable. -/

abbrev PathFS := List (List String × Content)

def pGet (fs : PathFS) (p : List String) : Option Content := List.lookup p fs

def pHas (fs : PathFS) (p : List String) : Bool := (pGet fs p).isSome

def pWrite (fs : PathFS) (p : List String) (c : Content) : PathFS := (p, c) :: fs

def splitSegs (name : String) : List String := splitChar (Char.ofNat 47) name

/-- `os.path.join(base, name)` on segment lists: an absolute `name`
replaces `base` entirely, a relative one is appended unresolved. -/
def joinPath (base : List String) (name : String) : List String :=
  if strStartsWith name "/" then splitSegs name else base ++ splitSegs name

/-- One step of `os.path.normpath` resolution on an absolute path:
empty and `.` segments vanish and `..` pops the previous segment. -/
def normStep (acc : List String) (s : String) : List String :=
  if s == "" || s == "." then acc
  else if s == ".." then acc.dropLast
  else acc ++ [s]

/-- `os.path.normpath` on an absolute path's segments. -/
def normalizeSegs (p : List String) : List String := p.foldl normStep []

/-- A segment list free of empty, `.` and `..` segments. -/
def cleanSegs (p : List String) : Bool := p.all (fun s => !(s == "" || s == "." || s == ".."))

/-- From `noobv0.py` `install_libraries`, natives loop (lines 626–633):
every archive entry not under `META-INF/` is written at
`os.path.join(natives_dir, file_name)` with no path normalization or
containment check whatsoever. -/
def nvExtractNatives (natives : List String) :
    List (String × Content) → PathFS → PathFS
  | [], fs => fs
  | e :: rest, fs =>
    if strStartsWith e.1 "META-INF/" then nvExtractNatives natives rest fs
    else nvExtractNatives natives rest (pWrite fs (joinPath natives e.1) e.2)

/-- CPython's `zipfile._extract_member` member-name sanitization, which
`ZipFile.extractall` applies to every entry: split on `/` and drop
empty, `.` and `..` components. -/
def sanitizeMember (name : String) : List String :=
  (splitSegs name).filter (fun s => !(s == "" || s == "." || s == ".."))

/-- From `samsoftbuild0a.py` `_download_library` (lines 779–782):
`zip_ref.extractall(natives_dir)` writes every entry — including
`META-INF/` ones — at the sanitized member path under `natives_dir`. -/
def ssExtractAll (natives : List String) :
    List (String × Content) → PathFS → PathFS
  | [], fs => fs
  | e :: rest, fs => ssExtractAll natives rest (pWrite fs (natives ++ sanitizeMember e.1) e.2)

/-! ## Argument template rendering -/

/-- One piece of a Python format template: literal text or a
replacement field naming a placeholder. -/
inductive TPart where
  | lit (s : String)
  | tok (name : String)
  deriving DecidableEq, Repr

/-- The literal source text of a template, as Python would echo it
unrendered. -/
def tmplText : List TPart → String
  | [] => ""
  | .lit s :: rest => s ++ tmplText rest
  | .tok n :: rest => "\x7b" ++ n ++ "\x7d" ++ tmplText rest

/-- Python's `str.format(**placeholders)`: a replacement field whose
name is absent from the mapping raises `KeyError` (the `error` case);
otherwise all fields are substituted. -/
def formatTmpl (ph : List (String × String)) : List TPart → Except Unit String
  | [] => .ok ""
  | .lit s :: rest => (formatTmpl ph rest).map (fun r => s ++ r)
  | .tok n :: rest =>
    match List.lookup n ph with
    | none => .error ()
    | some v => (formatTmpl ph rest).map (fun r => v ++ r)

/-- The `try: ... except KeyError: resolved.append(value)` pattern of
`resolve_arguments`: render, or fall back to the literal text. -/
def fmtPass (ph : List (String × String)) (t : List TPart) : String :=
  match formatTmpl ph t with
  | .ok s => s
  | .error _ => tmplText t

/-- An element of a structured `arguments` list: a plain string
template, or a rule-guarded object whose `value` is a string, a list,
or absent. -/
inductive ArgItem where
  | astr (t : List TPart)
  | advs (rules : List MCRule) (t : List TPart)
  | advl (rules : List MCRule) (items : List ArgItem)
  | advn (rules : List MCRule)
  deriving Repr

/-- From `noobv0.py` `resolve_arguments` (lines 665–689): at recursion
depth above 50 the call returns `[]`; a dict item is dropped when its
rules evaluate false via `apply_rules`; string values are rendered with
literal fallback on `KeyError`; list values recurse with `depth + 1`.
`fuel` is only this embedding's structural-recursion budget (one unit
per processed item); the Python recursion needs none because the
argument structure is finite and the depth cap bounds nesting. -/
def resolveArgs (osName : String) (ph : List (String × String)) :
    Nat → Nat → List ArgItem → List String
  | 0, _, _ => []
  | _ + 1, _, [] => []
  | fuel + 1, depth, item :: rest =>
    if 50 < depth then []
    else
      (match item with
       | .astr t => [fmtPass ph t]
       | .advs rules t => if apply_rules rules osName then [fmtPass ph t] else []
       | .advl rules items =>
         if apply_rules rules osName then resolveArgs osName ph fuel (depth + 1) items
         else []
       | .advn _ => []) ++ resolveArgs osName ph fuel depth rest

/-- From `noobv0.py` `get_placeholders` (lines 651–663), with the
computed directory constants passed as parameters. -/
def get_placeholders (username version gameDir assetsRoot assetsIndexName uuid
    accessToken : String) : List (String × String) :=
  [("auth_player_name", username), ("version_name", version), ("game_directory", gameDir),
   ("assets_root", assetsRoot), ("assets_index_name", assetsIndexName),
   ("auth_uuid", uuid), ("auth_access_token", accessToken), ("user_type", "legacy"),
   ("auth_session", accessToken), ("auth_offline_name", username)]

/-- From `noobv0.py` `_prepare_and_launch` (line 317): the flat legacy
`minecraftArguments` string is rendered with a bare
`.format(**placeholders)` — no `KeyError` guard — and split on
whitespace, so an unresolvable token raises and aborts the launch. -/
def legacyGameArgs (ph : List (String × String)) (t : List TPart) :
    Except Unit (List String) :=
  match formatTmpl ph t with
  | .ok s => .ok ((splitChar (Char.ofNat 32) s).filter (fun w => w != ""))
  | .error e => .error e

/-! ## Version resolution (`noobv0.py` `download_version_files`)

The function downloads the version JSON/JAR, handling modloaders; its
network fetches, the Fabric loader payload shape, the Forge installer
subprocess and the JAR hash checks are oracle booleans carried in the
per-version `VInfo` record.  Disk state is the set of existing file
names; recursion state is the `downloaded_versions` set. -/

inductive Loader where
  | vanilla
  | fabric
  | forge
  deriving DecidableEq, Repr

/-- Per-version data and effect oracles for `download_version_files`:
`hasUrl` — the `url` key is present; `fetchOk` — `urlopen` of that URL
succeeds; `mcVersion` — the `mc_version` key (Fabric); `loaderList` —
the fetched Fabric loader payload is a nonempty list; `forgeRunOk` /
`forgeWroteJson` — the Forge installer subprocess succeeds / generates
the version JSON; `hasClientDownload` — `downloads.client` is present;
`jarFetchOk` / `jarShaOk` — the client JAR download succeeds / matches
its declared SHA-1.  (For Fabric the parent's JAR oracles stand in for
the `downloads.client` data read back from the parent's JSON file.) -/
structure VInfo where
  hasUrl : Bool
  loader : Loader
  mcVersion : Option String
  fetchOk : Bool
  loaderList : Bool
  forgeRunOk : Bool
  forgeWroteJson : Bool
  hasClientDownload : Bool
  jarFetchOk : Bool
  jarShaOk : Bool
  deriving DecidableEq, Repr

/-- The distinct failure causes of `download_version_files`.  Each
corresponds to a concrete `raise`/exception site in the source except
`outOfFuel` (the fuel marker of this embedding) and `cycleDetected`,
which is modelled from the spec (§7 error taxonomy: `CycleDetected`) so
the specification's claimed outcome is expressible — the source contains
no corresponding raise. -/
inductive DlErr where
  | outOfFuel
  | noUrl
  | manifestFetchFailed
  | missingMcVersion
  | vanillaNotFound
  | vanillaDownloadFailed
  | fileNotFound
  | noLoaderData
  | jarFetchFailed
  | shaMismatch
  | missingDownloads
  | forgeInstallFailed
  | forgeNoJson
  | cycleDetected
  deriving DecidableEq, Repr

/-- Resolution state: the `downloaded_versions` set and the set of
existing files in `VERSIONS_DIR`. -/
structure RState where
  downloaded : List String
  files : List String
  deriving DecidableEq, Repr

def jsonFile (v : String) : String := v ++ ".json"

def jarFile (v : String) : String := v ++ ".jar"

def installerFile (v : String) : String := v ++ "-installer.jar"

def lookupVersion (env : List (String × VInfo)) (v : String) : Option VInfo :=
  List.lookup v env

/-- From `noobv0.py` `download_version_files` (lines 479–566), fuelled.
A version already in `downloaded_versions` returns `True` at once (the
recursion guard, line 481); an existing version JSON returns `True`
(line 485); otherwise the `try` body runs and the `finally` block
removes the version from `downloaded_versions`.  The result's first
component is `none` for `return True` and `some e` for the exception
`e` caught by the `except` block (which returns `False`). -/
def dvf (env : List (String × VInfo)) : Nat → String → VInfo → RState → Option DlErr × RState
  | 0, _, _, st => (some .outOfFuel, st)
  | fuel + 1, version, info, st =>
    if version ∈ st.downloaded then (none, st)
    else
      let st1 : RState := { st with downloaded := version :: st.downloaded }
      if jsonFile version ∈ st1.files then (none, st1)
      else
        let body : Option DlErr × RState :=
          if !info.hasUrl then (some .noUrl, st1)
          else if !info.fetchOk then (some .manifestFetchFailed, st1)
          else
            match info.loader with
            | .fabric =>
              match info.mcVersion with
              | none => (some .missingMcVersion, st1)
              | some mc =>
                match lookupVersion env mc with
                | none => (some .vanillaNotFound, st1)
                | some vinfo =>
                  let step : Bool × RState :=
                    if jsonFile mc ∈ st1.files then (true, st1)
                    else
                      match dvf env fuel mc vinfo st1 with
                      | (none, s) => (true, s)
                      | (some _, s) => (false, s)
                  if !step.1 then (some .vanillaDownloadFailed, step.2)
                  else
                    let st2 := step.2
                    if jsonFile mc ∉ st2.files then (some .fileNotFound, st2)
                    else if !info.loaderList then (some .noLoaderData, st2)
                    else
                      let st3 := { st2 with files := jsonFile version :: st2.files }
                      if jarFile mc ∈ st3.files then
                        (none, { st3 with files := jarFile version :: st3.files })
                      else if !vinfo.jarFetchOk then (some .jarFetchFailed, st3)
                      else
                        let st4 := { st3 with files := jarFile mc :: st3.files }
                        if !vinfo.jarShaOk then (some .shaMismatch, st4)
                        else (none, { st4 with files := jarFile version :: st4.files })
            | .forge =>
              let stI : RState :=
                if installerFile version ∈ st1.files then st1
                else { st1 with files := installerFile version :: st1.files }
              if !info.forgeRunOk then (some .forgeInstallFailed, stI)
              else
                let stJ : RState :=
                  if info.forgeWroteJson then { stI with files := jsonFile version :: stI.files }
                  else stI
                if jsonFile version ∉ stJ.files then (some .forgeNoJson, stJ)
                else (none, { stJ with files := stJ.files.erase (installerFile version) })
            | .vanilla =>
              let st2 := { st1 with files := jsonFile version :: st1.files }
              if !info.hasClientDownload then (some .missingDownloads, st2)
              else if !info.jarFetchOk then (some .jarFetchFailed, st2)
              else
                let st3 := { st2 with files := jarFile version :: st2.files }
                if !info.jarShaOk then (some .shaMismatch, st3)
                else (none, st3)
        (body.1, { body.2 with downloaded := body.2.downloaded.erase version })

/-- A Fabric manifest edge: `v` is present in the version table as a
Fabric version with a reachable URL and `mc_version = w`. -/
def fabricLink (env : List (String × VInfo)) (v w : String) : Bool :=
  match lookupVersion env v with
  | some info =>
    info.loader == Loader.fabric && info.hasUrl && info.fetchOk && info.mcVersion == some w
  | none => false

/-- `linksToB env v rest t` states that `v :: rest` is a chain of
Fabric `mc_version` edges ending with an edge into `t`. -/
def linksToB (env : List (String × VInfo)) : String → List String → String → Bool
  | v, [], t => fabricLink env v t
  | v, w :: rest, t => fabricLink env v w && linksToB env w rest t

/-- The exception a cyclic chain bottoms out in: the direct self-link
fails reading the missing parent JSON (`FileNotFoundError`), a longer
chain wraps that in `ValueError("Failed to download vanilla for
Fabric")`. -/
def cycleErr : List String → DlErr
  | [] => .fileNotFound
  | _ :: _ => .vanillaDownloadFailed

/-! ## Concrete fixtures used by witnesses and counterexamples -/

/-- A cached content whose digest (99) is wrong. -/
def badCW : Content := ⟨5, 99⟩

/-- A content whose digest (7) is the expected one. -/
def goodCW : Content := ⟨5, 7⟩

/-- Network oracle that always yields `goodCW`. -/
def netGoodW : Nat → NetResult := fun _ => NetResult.ok goodCW

/-- Network oracle: attempt 0 yields a zero-byte file, later attempts
raise. -/
def net5W : Nat → NetResult := fun i => if i = 0 then NetResult.ok ⟨0, 42⟩ else NetResult.fail i

/-- Network oracle where every attempt raises (code = attempt index). -/
def netAllFailW : Nat → NetResult := fun i => NetResult.fail i

/-- A mandatory library (no rules) with an artifact descriptor. -/
def libWW : LibEntry := ⟨["g", "a", "1"], [], some ⟨"u", "pp", some 7⟩⟩

/-- A mandatory library with no `downloads.artifact` object. -/
def libAW : LibEntry := ⟨["g", "a", "1"], [], none⟩

/-- A library disallowed on linux. -/
def libBW : LibEntry := ⟨["h", "b", "2"], [⟨some (some "linux"), false, "disallow"⟩], none⟩

/-- A malicious natives archive: a traversal entry and a signing-
metadata entry. -/
def archW : List (String × Content) := [("../../evil", ⟨1, 1⟩), ("META-INF/MOJANG.SF", ⟨1, 2⟩)]

/-- A concrete placeholder context as `get_placeholders` builds it. -/
def phCW : List (String × String) := get_placeholders "Player" "1.20.1" "mc" "assets" "idx" "u" "0"

/-- A template holding a token absent from `get_placeholders`. -/
def tmplW : List TPart := [TPart.lit "--demo ", TPart.tok "natives_directory"]

/-- A Fabric version whose `mc_version` is itself. -/
def fabSelfW : VInfo := ⟨true, .fabric, some "A", true, true, true, true, true, true, true⟩

/-- Version table with the direct self-cycle `A → A`. -/
def envSelfW : List (String × VInfo) := [("A", fabSelfW)]

/-- Fabric version `A` inheriting from `B`. -/
def fabABW : VInfo := ⟨true, .fabric, some "B", true, true, true, true, true, true, true⟩

/-- Fabric version `B` inheriting from `A`. -/
def fabBAW : VInfo := ⟨true, .fabric, some "A", true, true, true, true, true, true, true⟩

/-- Version table with the two-step cycle `A → B → A`. -/
def envABW : List (String × VInfo) := [("A", fabABW), ("B", fabBAW)]

end Launcher

namespace Launcher

/-! ## Helper lemmas -/

theorem matches_conditions_eq_spec (r : MCRule) (osName : String) :
    matches_conditions r osName = specRuleMatches r osName := by
  rcases r with ⟨ro, rf, ra⟩
  rcases ro with _ | ro
  · cases rf <;> simp [matches_conditions, specRuleMatches]
  · rcases ro with _ | n
    · cases rf <;> simp [matches_conditions, specRuleMatches]
    · cases rf <;> simp [matches_conditions, specRuleMatches, bne] <;>
        cases h : n == osName <;> simp_all [beq_iff_eq]

theorem shouldIncludeScan_eq_spec (osName : String) :
    ∀ rules, shouldIncludeScan osName rules = specIncludedScan osName rules := by
  intro rules
  induction rules with
  | nil => rfl
  | cons r rest ih =>
    simp [shouldIncludeScan, specIncludedScan, matches_conditions_eq_spec, ih]

/-! ## C1 -/

/-- C1 (amended): the `samsoftbuild0a.py` rule evaluator
`should_include` implements exactly the claimed semantics — empty rule
list included, first matching rule (feature-conditioned rules never
match, an `os` condition must name the current OS) decides via its
action, no match means excluded — for every rule list and every OS. -/
theorem C1_should_include_matches_spec (rules : List MCRule) (osName : String) :
    should_include rules osName = specIncluded rules osName := by
  simp [should_include, specIncluded, shouldIncludeScan_eq_spec]

/-- C1 counterexample: the claim also names `apply_rules` of
`noobv0.py` as the rule evaluator, but `apply_rules` violates the
claimed semantics: when no rule matches it returns included (the claim
says excluded), and it scans past a matching `allow` rule instead of
letting the first matching rule decide. -/
theorem C1_apply_rules_diverges_counterexample :
    apply_rules [⟨some (some "windows"), false, "allow"⟩] "linux" = true ∧
    specIncluded [⟨some (some "windows"), false, "allow"⟩] "linux" = false ∧
    apply_rules [⟨some (some "linux"), false, "allow"⟩,
      ⟨some (some "linux"), false, "disallow"⟩] "linux" = false ∧
    specIncluded [⟨some (some "linux"), false, "allow"⟩,
      ⟨some (some "linux"), false, "disallow"⟩] "linux" = true := by
  decide

/-! ## C2 -/

/-- C2 counterexample: for the rule list
`[(os = windows, action = disallow)]` on current OS `linux`,
`should_include` of `samsoftbuild0a.py` — cited by the claim — yields
excluded, while the claim says included. -/
theorem C2_should_include_excludes_counterexample :
    should_include [⟨some (some "windows"), false, "disallow"⟩] "linux" = false := by
  decide

/-- C2 (amended): on the rule list `[(os = windows, action = disallow)]`
the two evaluators disagree: `apply_rules` (`noobv0.py`) yields included
on `linux` and excluded on `windows` exactly as the claim states, while
`should_include` (`samsoftbuild0a.py`) yields excluded on both, because
with no matching rule its default is excluded. -/
theorem C2_windows_disallow_rule_evaluation :
    apply_rules [⟨some (some "windows"), false, "disallow"⟩] "linux" = true ∧
    apply_rules [⟨some (some "windows"), false, "disallow"⟩] "windows" = false ∧
    should_include [⟨some (some "windows"), false, "disallow"⟩] "linux" = false ∧
    should_include [⟨some (some "windows"), false, "disallow"⟩] "windows" = false := by
  decide

theorem fsGet_write_self (fs : FS) (p : String) (c : Content) :
    fsGet (fsWrite fs p c) p = some c := by
  simp [fsGet, fsWrite, List.lookup]

theorem fsGet_erase (fs : FS) (p : String) : fsGet (fsErase fs p) p = none := by
  induction fs with
  | nil => rfl
  | cons e rest ih =>
    rcases e with ⟨q, c⟩
    show fsGet (List.filter (fun e => e.1 != p) ((q, c) :: rest)) p = none
    rw [List.filter_cons]
    by_cases h : q = p
    · subst h
      rw [if_neg (by simp)]
      exact ih
    · rw [if_pos (by simp [bne, h])]
      have hpq : (p == q) = false := beq_eq_false_iff_ne.mpr (Ne.symm h)
      simp only [fsGet, List.lookup, hpq]
      exact ih

theorem fsHas_erase (fs : FS) (p : String) : fsHas (fsErase fs p) p = false := by
  simp [fsHas, fsGet_erase]

/-- Characterization of the six outcome shapes of `downloadWithRetry`:
at most three attempts, sleeps a prefix of `[1, 2]`, and when all three
attempts fail the last attempt's exception is re-raised. -/
theorem downloadWithRetry_char (net : Nat → NetResult) (fs : FS) (p : String) :
    (downloadWithRetry net fs p).attempts ≤ 3 ∧
    ((downloadWithRetry net fs p).sleeps).isPrefixOf [1, 2] = true ∧
    (∀ e0 e1 e2 : AttemptErr, attemptErr net 0 = some e0 → attemptErr net 1 = some e1 →
      attemptErr net 2 = some e2 → (downloadWithRetry net fs p).out = .raised e2) := by
  have last3 : ∀ (fs2 : FS),
      (dlRetryGo net p 1 2 fs2 [1, 2] 2).attempts ≤ 3 ∧
      ((dlRetryGo net p 1 2 fs2 [1, 2] 2).sleeps).isPrefixOf [1, 2] = true ∧
      (∀ e2 : AttemptErr, attemptErr net 2 = some e2 →
        (dlRetryGo net p 1 2 fs2 [1, 2] 2).out = .raised e2) := by
    intro fs2
    rcases h2 : net 2 with c2 | c2
    · refine ⟨by simp [dlRetryGo, h2], by simp [dlRetryGo, h2], ?_⟩
      intro e2 he2
      simp only [attemptErr, h2, Option.some.injEq] at he2
      simp [dlRetryGo, h2, ← he2]
    · by_cases hs2 : c2.size = 0
      · refine ⟨by simp [dlRetryGo, h2, hs2], by simp [dlRetryGo, h2, hs2], ?_⟩
        intro e2 he2
        simp only [attemptErr, h2, hs2, if_pos, Option.some.injEq] at he2
        simp [dlRetryGo, h2, hs2, ← he2]
      · refine ⟨by simp [dlRetryGo, h2, hs2], by simp [dlRetryGo, h2, hs2], ?_⟩
        intro e2 he2
        simp [attemptErr, h2, hs2] at he2
  have mid2 : ∀ (fs1 : FS),
      (dlRetryGo net p 2 1 fs1 [1] 1).attempts ≤ 3 ∧
      ((dlRetryGo net p 2 1 fs1 [1] 1).sleeps).isPrefixOf [1, 2] = true ∧
      (∀ e1 e2 : AttemptErr, attemptErr net 1 = some e1 → attemptErr net 2 = some e2 →
        (dlRetryGo net p 2 1 fs1 [1] 1).out = .raised e2) := by
    intro fs1
    rcases h1 : net 1 with c1 | c1
    · have hred : dlRetryGo net p 2 1 fs1 [1] 1 = dlRetryGo net p 1 2 fs1 [1, 2] 2 := by
        simp [dlRetryGo, h1]
      rw [hred]
      exact ⟨(last3 fs1).1, (last3 fs1).2.1, fun e1 e2 _ he2 => (last3 fs1).2.2 e2 he2⟩
    · by_cases hs1 : c1.size = 0
      · have hred : dlRetryGo net p 2 1 fs1 [1] 1 =
            dlRetryGo net p 1 2 (fsWrite fs1 p c1) [1, 2] 2 := by
          simp [dlRetryGo, h1, hs1]
        rw [hred]
        exact ⟨(last3 _).1, (last3 _).2.1, fun e1 e2 _ he2 => (last3 _).2.2 e2 he2⟩
      · refine ⟨by simp [dlRetryGo, h1, hs1], by simp [dlRetryGo, h1, hs1], ?_⟩
        intro e1 e2 he1 he2
        simp [attemptErr, h1, hs1] at he1
  rcases h0 : net 0 with c0 | c0
  · have hred : downloadWithRetry net fs p = dlRetryGo net p 2 1 fs [1] 1 := by
      simp [downloadWithRetry, dlRetryGo, h0]
    rw [hred]
    exact ⟨(mid2 fs).1, (mid2 fs).2.1, fun e0 e1 e2 _ he1 he2 => (mid2 fs).2.2 e1 e2 he1 he2⟩
  · by_cases hs0 : c0.size = 0
    · have hred : downloadWithRetry net fs p =
          dlRetryGo net p 2 1 (fsWrite fs p c0) [1] 1 := by
        simp [downloadWithRetry, dlRetryGo, h0, hs0]
      rw [hred]
      exact ⟨(mid2 _).1, (mid2 _).2.1, fun e0 e1 e2 _ he1 he2 => (mid2 _).2.2 e1 e2 he1 he2⟩
    · refine ⟨by simp [downloadWithRetry, dlRetryGo, h0, hs0],
        by simp [downloadWithRetry, dlRetryGo, h0, hs0], ?_⟩
      intro e0 e1 e2 he0 he1 he2
      simp [attemptErr, h0, hs0] at he0

/-! ## C4 -/

/-- C4 (amended): for `samsoftbuild0a.py` `_download_library` the claim
holds: with an expected hash present, network I/O is skipped exactly
when the destination file exists and its hash verifies, and a corrupted
cached artifact is re-downloaded and replaced by the correct content.
(`noobv0.py` `install_libraries`, also cited, skips on bare existence —
see the counterexample.) -/
theorem C4_fetch_skip_and_replace :
    (∀ (net : Nat → NetResult) (fs : FS) (p : String) (h : Nat),
      (ssFetchArtifact net fs p (some h)).netUsed = false ↔
        (fsHas fs p = true ∧ verify_file fs p h = true)) ∧
    (∀ (net : Nat → NetResult) (fs : FS) (p : String) (h : Nat) (c₀ c₁ : Content),
      fsGet fs p = some c₀ → c₀.digest ≠ h →
      net 0 = NetResult.ok c₁ → c₁.size ≠ 0 → c₁.digest = h →
      (ssFetchArtifact net fs p (some h)).result = .ok true ∧
        fsGet (ssFetchArtifact net fs p (some h)).fs p = some c₁) := by
  constructor
  · intro net fs p h
    simp only [ssFetchArtifact]
    split
    · next hc =>
      simp only [Bool.and_eq_true] at hc
      simp [hc.1, hc.2]
    · next hc =>
      simp only [Bool.and_eq_true, not_and] at hc
      have hnot : ¬(fsHas fs p = true ∧ verify_file fs p h = true) := fun hcon =>
        hc hcon.1 hcon.2
      cases hout : (downloadWithRetry net fs p).out with
      | success =>
        by_cases hv : verify_file (downloadWithRetry net fs p).fs p h = true
        · rw [if_pos hv]
          exact iff_of_false (by simp) hnot
        · rw [if_neg hv]
          exact iff_of_false (by simp) hnot
      | raised e => exact iff_of_false (by simp) hnot
      | fellThrough => exact iff_of_false (by simp) hnot
  · intro net fs p h c₀ c₁ h0 hne hnet hsz hdig
    have hv : verify_file fs p h = false := by
      simp [verify_file, h0, hne]
    have hdl : downloadWithRetry net fs p = ⟨.success, fsWrite fs p c₁, [], 1⟩ := by
      simp [downloadWithRetry, dlRetryGo, hnet, hsz]
    have hvw : verify_file (fsWrite fs p c₁) p h = true := by
      simp [verify_file, fsGet_write_self, hdig]
    simp [ssFetchArtifact, hv, hdl, hvw, fsGet_write_self]

/-- C4 counterexample: `noobv0.py` `install_libraries` skips the
network purely on file existence: with a corrupted cached artifact
(digest 99, expected 7) at the destination, no network request happens
and the wrong bytes are kept, contradicting both the claimed
iff-condition and the claimed replacement. -/
theorem C4_nv_keeps_corrupt_cache_counterexample :
    nvFetchArtifact (fun _ => NetResult.fail 0) [("libs/x.jar", badCW)] "libs/x.jar"
      (some ⟨"u", "pp", some 7⟩) = ([("libs/x.jar", badCW)], false) ∧
    verify_file [("libs/x.jar", badCW)] "libs/x.jar" 7 = false := by
  decide

/-- Witness for C4: the second part of `C4_fetch_skip_and_replace`
applied to a concrete corrupted cache entry and a healthy network. -/
theorem C4_fetch_skip_and_replace_witness :
    fsGet [("p", badCW)] "p" = some badCW ∧ badCW.digest ≠ 7 ∧
    (ssFetchArtifact netGoodW [("p", badCW)] "p" (some 7)).result = .ok true ∧
    fsGet (ssFetchArtifact netGoodW [("p", badCW)] "p" (some 7)).fs "p" = some goodCW :=
  ⟨by decide, by decide,
    (C4_fetch_skip_and_replace.2 netGoodW [("p", badCW)] "p" 7 badCW goodCW
      (by decide) (by decide) (by decide) (by decide) (by decide)).1,
    (C4_fetch_skip_and_replace.2 netGoodW [("p", badCW)] "p" 7 badCW goodCW
      (by decide) (by decide) (by decide) (by decide) (by decide)).2⟩

/-! ## C5 -/

/-- C5 (amended): `_download_with_retry` (`samsoftbuild0a.py`) makes at
most 3 attempts with exponential backoff (its sleep log is a prefix of
`[1, 2]` seconds) and, when every attempt fails, re-raises the last
attempt's exception; but no file is ever deleted between attempts or
after final failure (see the counterexample).  The deletion behaviour
the claim describes exists only in `noobv0.py` `_download_asset`, which
deletes the file on every failure — but makes a single attempt with no
retry and no backoff. -/
theorem C5_retry_policy :
    (∀ (net : Nat → NetResult) (fs : FS) (p : String),
      (downloadWithRetry net fs p).attempts ≤ 3) ∧
    (∀ (net : Nat → NetResult) (fs : FS) (p : String),
      ((downloadWithRetry net fs p).sleeps).isPrefixOf [1, 2] = true) ∧
    (∀ (net : Nat → NetResult) (fs : FS) (p : String) (e0 e1 e2 : AttemptErr),
      attemptErr net 0 = some e0 → attemptErr net 1 = some e1 →
      attemptErr net 2 = some e2 →
      (downloadWithRetry net fs p).out = .raised e2) ∧
    (∀ (net1 : NetResult) (expected : Nat) (fs : FS) (p : String) (e : NvAssetErr),
      (nvDownloadAsset net1 expected fs p).1 = some e →
      fsHas (nvDownloadAsset net1 expected fs p).2 p = false) := by
  refine ⟨fun net fs p => (downloadWithRetry_char net fs p).1,
    fun net fs p => (downloadWithRetry_char net fs p).2.1,
    fun net fs p => (downloadWithRetry_char net fs p).2.2, ?_⟩
  intro net1 expected fs p e he
  cases net1 with
  | fail code =>
    by_cases hh : fsHas fs p = true <;>
      simp_all [nvDownloadAsset, fsHas_erase, Bool.not_eq_true]
  | ok c =>
    by_cases hd : c.digest = expected <;>
      simp_all [nvDownloadAsset, fsHas_erase, bne]

/-- C5 counterexample: with attempt 0 producing a zero-byte file and
attempts 1 and 2 raising, the loop re-raises the last network error but
the zero-byte file written by attempt 0 is still on disk at the end —
it was never deleted between attempts nor after final failure, contrary
to the claim. -/
theorem C5_zero_byte_file_persists_counterexample :
    (downloadWithRetry net5W [] "p").out = .raised (.netE 2) ∧
    fsGet (downloadWithRetry net5W [] "p").fs "p" = some ⟨0, 42⟩ := by
  decide

/-- Witness for C5: the exhaustion clause applied to an all-failing
network, and the `noobv0.py` deletion clause applied to a
hash-mismatching download. -/
theorem C5_retry_policy_witness :
    attemptErr netAllFailW 0 = some (.netE 0) ∧
    attemptErr netAllFailW 2 = some (.netE 2) ∧
    (downloadWithRetry netAllFailW [] "q").out = .raised (.netE 2) ∧
    fsHas (nvDownloadAsset (NetResult.ok badCW) 7 [] "q").2 "q" = false :=
  ⟨by decide, by decide,
    C5_retry_policy.2.2.1 netAllFailW [] "q" (.netE 0) (.netE 1) (.netE 2)
      (by decide) (by decide) (by decide),
    C5_retry_policy.2.2.2 (NetResult.ok badCW) 7 [] "q" .hashMismatch (by decide)⟩

theorem pHas_write (fs : PathFS) (q p : List String) (c : Content) :
    pHas (pWrite fs q c) p = true ↔ p = q ∨ pHas fs p = true := by
  by_cases h : p = q
  · subst h
    have : pGet (pWrite fs p c) p = some c := by
      simp only [pGet, pWrite, List.lookup, beq_self_eq_true]
    simp [pHas, this]
  · have hb : (p == q) = false := beq_eq_false_iff_ne.mpr h
    have : pGet (pWrite fs q c) p = pGet fs p := by
      simp only [pGet, pWrite, List.lookup, hb]
    simp [pHas, this, h]

theorem foldl_normStep_clean :
    ∀ (q acc : List String), cleanSegs q = true → q.foldl normStep acc = acc ++ q := by
  intro q
  induction q with
  | nil => simp
  | cons s rest ih =>
    intro acc hc
    simp only [cleanSegs, List.all_cons, Bool.and_eq_true] at hc
    obtain ⟨hs, hrest⟩ := hc
    have hstep : normStep acc s = acc ++ [s] := by
      simp only [Bool.not_eq_true', Bool.or_eq_false_iff] at hs
      simp [normStep, hs.1.1, hs.1.2, hs.2]
    rw [List.foldl_cons, hstep, ih (acc ++ [s]) hrest]
    simp

theorem normalizeSegs_clean (q : List String) (hq : cleanSegs q = true) :
    normalizeSegs q = q := by
  simpa using foldl_normStep_clean q [] hq

theorem cleanSegs_append (a b : List String) :
    cleanSegs (a ++ b) = (cleanSegs a && cleanSegs b) := by
  simp [cleanSegs, List.all_append]

theorem cleanSegs_sanitize (name : String) : cleanSegs (sanitizeMember name) = true := by
  simp only [cleanSegs, List.all_eq_true]
  intro s hs
  exact (List.mem_filter.mp hs).2

theorem isPrefixOf_self_append (xs ys : List String) : xs.isPrefixOf (xs ++ ys) = true := by
  induction xs with
  | nil => simp [List.isPrefixOf]
  | cons x rest ih => simp [List.isPrefixOf, ih]

/-! ## C6 -/

/-- C6 (amended): the two extractors each satisfy half of the claim.
`samsoftbuild0a.py` (`extractall`) keeps every write inside the natives
directory — any path present afterwards was either present before or is
the natives directory followed by sanitized segments, whose normalized
form stays under the natives directory — but it does not skip
`META-INF/` entries.  `noobv0.py` skips exactly the `META-INF/` entries
but writes every other entry at the unnormalized
`os.path.join(natives_dir, name)`, which for a `..`-carrying name
escapes the natives directory (see the counterexample). -/
theorem C6_native_extraction_paths :
    (∀ (natives : List String) (archive : List (String × Content)) (fs : PathFS)
      (p : List String), cleanSegs natives = true →
      pHas (ssExtractAll natives archive fs) p = true →
      pHas fs p = true ∨ natives.isPrefixOf (normalizeSegs p) = true) ∧
    (∀ (natives : List String) (archive : List (String × Content)) (fs : PathFS)
      (p : List String), pHas (nvExtractNatives natives archive fs) p = true →
      pHas fs p = true ∨ ∃ e ∈ archive, strStartsWith e.1 "META-INF/" = false ∧
        p = joinPath natives e.1) := by
  constructor
  · intro natives archive
    induction archive with
    | nil =>
      intro fs p _ hp
      exact Or.inl hp
    | cons e rest ih =>
      intro fs p hcl hp
      rcases ih (pWrite fs (natives ++ sanitizeMember e.1) e.2) p hcl hp with hw | hpre
      · rcases (pHas_write _ _ _ _).mp hw with rfl | hfs
        · right
          have hc : cleanSegs (natives ++ sanitizeMember e.1) = true := by
            rw [cleanSegs_append, hcl, cleanSegs_sanitize]
            rfl
          rw [normalizeSegs_clean _ hc]
          exact isPrefixOf_self_append _ _
        · exact Or.inl hfs
      · exact Or.inr hpre
  · intro natives archive
    induction archive with
    | nil =>
      intro fs p hp
      exact Or.inl hp
    | cons e rest ih =>
      intro fs p hp
      by_cases hm : strStartsWith e.1 "META-INF/" = true
      · rw [nvExtractNatives, if_pos hm] at hp
        rcases ih fs p hp with hfs | ⟨e', he', hne, hpe⟩
        · exact Or.inl hfs
        · exact Or.inr ⟨e', List.mem_cons_of_mem _ he', hne, hpe⟩
      · rw [nvExtractNatives, if_neg hm] at hp
        rcases ih (pWrite fs (joinPath natives e.1) e.2) p hp with hw | ⟨e', he', hne, hpe⟩
        · rcases (pHas_write _ _ _ _).mp hw with rfl | hfs
          · exact Or.inr ⟨e, List.mem_cons_self _ _,
              by simpa using hm, rfl⟩
          · exact Or.inl hfs
        · exact Or.inr ⟨e', List.mem_cons_of_mem _ he', hne, hpe⟩

/-- C6 counterexample: on the malicious archive `archW`, `noobv0.py`
writes the entry `../../evil` at a path whose normalization escapes the
natives directory, and `samsoftbuild0a.py` extracts the
`META-INF/MOJANG.SF` entry instead of skipping it. -/
theorem C6_extraction_counterexample :
    pHas (nvExtractNatives ["base", "natives"] archW [])
      ["base", "natives", "..", "..", "evil"] = true ∧
    (["base", "natives"] : List String).isPrefixOf
      (normalizeSegs ["base", "natives", "..", "..", "evil"]) = false ∧
    pHas (ssExtractAll ["base", "natives"] archW [])
      ["base", "natives", "META-INF", "MOJANG.SF"] = true := by
  decide

/-- Witness for C6: the containment half applied to a benign archive. -/
theorem C6_native_extraction_paths_witness :
    cleanSegs ["base", "natives"] = true ∧
    pHas (ssExtractAll ["base", "natives"] [("lib.so", ⟨1, 3⟩)] [])
      ["base", "natives", "lib.so"] = true ∧
    (pHas ([] : PathFS) ["base", "natives", "lib.so"] = true ∨
      (["base", "natives"] : List String).isPrefixOf
        (normalizeSegs ["base", "natives", "lib.so"]) = true) :=
  ⟨by decide, by decide,
    C6_native_extraction_paths.1 ["base", "natives"] [("lib.so", ⟨1, 3⟩)] []
      ["base", "natives", "lib.so"] (by decide) (by decide)⟩

/-! ## C7 -/

/-- C7 (amended): in `samsoftbuild0a.py` the claim holds — when the
fetch of any rule-allowed library does not succeed, the whole library
phase of `download_version_files` fails (returns `False` or propagates
the exception), never `True`.  In `noobv0.py` `install_libraries` the
same situation is silently swallowed: the loop continues and the failed
library is simply missing from `lib_paths` (see the counterexample). -/
theorem C7_failed_mandatory_library_is_fatal :
    ∀ (osName : String) (nets : LibEntry → Nat → NetResult) (fs0 : FS)
      (libs : List LibEntry) (lib : LibEntry),
      lib ∈ libs → is_library_allowed lib osName = true →
      (ssDownloadLibrary (nets lib) fs0 lib).result ≠ .ok true →
      ssInstallLibraries osName nets fs0 libs ≠ .ok true := by
  intro os nets fs0 libs lib hmem hall hfail
  induction libs with
  | nil => cases hmem
  | cons l rest ih =>
    rcases List.mem_cons.mp hmem with rfl | hmem'
    · simp only [ssInstallLibraries, ssGatherResults, hall, if_true]
      rcases hres : (ssDownloadLibrary (nets lib) fs0 lib).result with e | b
      · simp
      · cases b
        · simp
        · exact absurd hres hfail
    · simp only [ssInstallLibraries, ssGatherResults]
      by_cases hl : is_library_allowed l os = true
      · rw [if_pos hl]
        rcases hres : (ssDownloadLibrary (nets l) fs0 l).result with e | b
        · simp
        · cases b
          · simp
          · exact ih hmem'
      · rw [if_neg hl]
        exact ih hmem'

/-- C7 counterexample: in `noobv0.py`, a library with no rules (hence
mandatory on every OS) whose download fails is silently dropped: the
loop returns normally with an empty classpath and no error channel at
all. -/
theorem C7_nv_silent_drop_counterexample :
    apply_rules libWW.rules "linux" = true ∧
    nvInstallLibraries "linux" (fun _ => NetResult.fail 0) [] [libWW] = ([], []) := by
  decide

/-- Witness for C7: the fatality theorem applied to a one-library
manifest whose download raises on every attempt. -/
theorem C7_failed_mandatory_library_is_fatal_witness :
    is_library_allowed libWW "linux" = true ∧
    ssInstallLibraries "linux" (fun _ _ => NetResult.fail 3) [] [libWW] ≠ .ok true :=
  ⟨by decide,
    C7_failed_mandatory_library_is_fatal "linux" (fun _ _ => NetResult.fail 3) [] [libWW]
      libWW (by decide) (by decide) (by decide)⟩

theorem resolveArgs_nil (osName : String) (ph : List (String × String)) (fuel depth : Nat) :
    resolveArgs osName ph fuel depth [] = [] := by
  cases fuel <;> rfl

/-! ## C9 -/

/-- C9 (amended): the structured-list renderer `resolve_arguments`
(`noobv0.py`) is indeed non-fatal on an unresolvable token: both a plain
string item and a rule-guarded string item whose template fails to
format are passed through as the literal unrendered template text.  The
flat legacy `minecraftArguments` path in `_prepare_and_launch`, however,
has no such guard: the `KeyError` escapes and aborts the launch instead
of passing the text through (see the counterexample). -/
theorem C9_unresolvable_token_handling :
    (∀ (osName : String) (ph : List (String × String)) (t : List TPart) (fuel depth : Nat),
      formatTmpl ph t = .error () → depth ≤ 50 →
      resolveArgs osName ph (fuel + 1) depth [ArgItem.astr t] = [tmplText t] ∧
      resolveArgs osName ph (fuel + 1) depth [ArgItem.advs [] t] = [tmplText t]) ∧
    (∀ (ph : List (String × String)) (t : List TPart),
      formatTmpl ph t = .error () → legacyGameArgs ph t = .error ()) := by
  constructor
  · intro osName ph t fuel depth herr h50
    have hnd : ¬50 < depth := by omega
    have hfp : fmtPass ph t = tmplText t := by simp [fmtPass, herr]
    constructor
    · simp [resolveArgs, hnd, hfp, resolveArgs_nil]
    · simp [resolveArgs, hnd, hfp, apply_rules, resolveArgs_nil]
  · intro ph t herr
    simp [legacyGameArgs, herr]

/-- C9 counterexample: for the same template holding the token
`natives_directory` (absent from `get_placeholders`), the structured
renderer passes the literal text through but the flat legacy path
raises — the claim's "never fatal ... in both formats" fails in the
legacy-string format. -/
theorem C9_legacy_format_fatal_counterexample :
    legacyGameArgs phCW tmplW = .error () ∧
    resolveArgs "linux" phCW 9 0 [ArgItem.astr tmplW] =
      ["--demo \x7bnatives_directory\x7d"] := by
  decide

/-- Witness for C9: the pass-through halves applied to the concrete
placeholder context and template. -/
theorem C9_unresolvable_token_handling_witness :
    formatTmpl phCW tmplW = .error () ∧
    resolveArgs "linux" phCW 9 0 [ArgItem.astr tmplW] = [tmplText tmplW] ∧
    legacyGameArgs phCW tmplW = .error () :=
  ⟨by decide,
    (C9_unresolvable_token_handling.1 "linux" phCW tmplW 8 0 (by decide) (by decide)).1,
    C9_unresolvable_token_handling.2 phCW tmplW (by decide)⟩

theorem fsGet_write_ne (fs : FS) (p q : String) (c : Content) (h : q ≠ p) :
    fsGet (fsWrite fs p c) q = fsGet fs q := by
  have hb : (q == p) = false := beq_eq_false_iff_ne.mpr h
  simp only [fsGet, fsWrite, List.lookup, hb]

theorem fsHas_write_mono (fs : FS) (p q : String) (c : Content) (h : fsHas fs q = true) :
    fsHas (fsWrite fs p c) q = true := by
  by_cases hpq : q = p
  · subst hpq
    simp [fsHas, fsGet_write_self]
  · rw [fsHas, fsGet_write_ne fs p q c hpq]
    exact h

theorem dlRetryGo_fs_mono (net : Nat → NetResult) (p : String) :
    ∀ (r i : Nat) (fs : FS) (sl : List Nat) (att : Nat) (q : String),
      fsHas fs q = true → fsHas (dlRetryGo net p r i fs sl att).fs q = true := by
  intro r
  induction r with
  | zero =>
    intro i fs sl att q h
    simpa [dlRetryGo] using h
  | succ r ih =>
    intro i fs sl att q h
    rcases hn : net i with c | c
    · by_cases hr : r = 0
      · subst hr
        simpa [dlRetryGo, hn] using h
      · simp only [dlRetryGo, hn, if_neg hr]
        exact ih _ _ _ _ _ h
    · by_cases hs : c.size = 0
      · by_cases hr : r = 0
        · subst hr
          simpa [dlRetryGo, hn, hs] using fsHas_write_mono fs p q c h
        · simp only [dlRetryGo, hn, if_pos hs, if_neg hr]
          exact ih _ _ _ _ _ (fsHas_write_mono fs p q c h)
      · simpa [dlRetryGo, hn, hs] using fsHas_write_mono fs p q c h

theorem ssFetchArtifact_fs_mono (net : Nat → NetResult) (fs : FS) (p : String)
    (sha : Option Nat) (q : String) (h : fsHas fs q = true) :
    fsHas (ssFetchArtifact net fs p sha).fs q = true := by
  have hdl : fsHas (downloadWithRetry net fs p).fs q = true :=
    dlRetryGo_fs_mono net p 3 0 fs [] 0 q h
  simp only [ssFetchArtifact]
  split
  · exact h
  · cases hout : (downloadWithRetry net fs p).out with
    | success =>
      cases sha with
      | none => simpa using hdl
      | some h' =>
        by_cases hv : verify_file (downloadWithRetry net fs p).fs p h' = true
        · simpa [hv] using hdl
        · simpa [hv] using hdl
    | raised e => simpa using hdl
    | fellThrough => simpa using hdl

theorem ssApplyLib_fs_mono (net : Nat → NetResult) (fs : FS) (lib : LibEntry) (q : String)
    (h : fsHas fs q = true) : fsHas (ssApplyLib net fs lib) q = true := by
  rcases hparts : lib.nameParts with _ | ⟨g, _ | ⟨a, _ | ⟨v, tail⟩⟩⟩
  · simpa [ssApplyLib, ssDownloadLibrary, hparts] using h
  · simpa [ssApplyLib, ssDownloadLibrary, hparts] using h
  · simpa [ssApplyLib, ssDownloadLibrary, hparts] using h
  · simp only [ssApplyLib, ssDownloadLibrary, hparts]
    exact ssFetchArtifact_fs_mono net fs _ _ q h

theorem ssApplyLib_creates (net : Nat → NetResult) (fs : FS) (lib : LibEntry)
    (g a v : String) (tail : List String) (c : Content)
    (hparts : lib.nameParts = g :: a :: v :: tail) (hart : lib.artifact = none)
    (hnet : net 0 = NetResult.ok c) (hsz : c.size ≠ 0) :
    fsHas (ssApplyLib net fs lib) (ssLibRelPath g a v) = true := by
  simp only [ssApplyLib, ssDownloadLibrary, hparts, hart, Option.bind]
  by_cases hhas : fsHas fs (ssLibRelPath g a v) = true
  · simpa [ssFetchArtifact, hhas] using hhas
  · have hdl : downloadWithRetry net fs (ssLibRelPath g a v) =
        ⟨.success, fsWrite fs (ssLibRelPath g a v) c, [], 1⟩ := by
      simp [downloadWithRetry, dlRetryGo, hnet, hsz]
    have hf : (fsGet fs (ssLibRelPath g a v)).isSome = false := by
      simpa [fsHas] using hhas
    simp [ssFetchArtifact, hf, hdl, fsHas, fsGet_write_self]

theorem ssDownloadAll_fs_mono (nets : LibEntry → Nat → NetResult) :
    ∀ (order : List LibEntry) (fs : FS) (q : String),
      fsHas fs q = true → fsHas (ssDownloadAll nets fs order) q = true := by
  intro order
  induction order with
  | nil =>
    intro fs q h
    simpa [ssDownloadAll] using h
  | cons l rest ih =>
    intro fs q h
    simp only [ssDownloadAll]
    exact ih _ _ (ssApplyLib_fs_mono _ _ _ _ h)

theorem ssDownloadAll_creates (nets : LibEntry → Nat → NetResult) :
    ∀ (order : List LibEntry) (fs : FS) (lib : LibEntry) (g a v : String)
      (tail : List String),
      lib ∈ order → lib.nameParts = g :: a :: v :: tail → lib.artifact = none →
      (∃ c, nets lib 0 = NetResult.ok c ∧ c.size ≠ 0) →
      fsHas (ssDownloadAll nets fs order) (ssLibRelPath g a v) = true := by
  intro order
  induction order with
  | nil =>
    intro fs lib g a v tail hmem
    cases hmem
  | cons l rest ih =>
    intro fs lib g a v tail hmem hparts hart hc
    obtain ⟨c, hnet, hsz⟩ := hc
    rcases List.mem_cons.mp hmem with rfl | hmem'
    · simp only [ssDownloadAll]
      exact ssDownloadAll_fs_mono nets rest _ _
        (ssApplyLib_creates _ _ _ _ _ _ _ _ hparts hart hnet hsz)
    · simp only [ssDownloadAll]
      exact ih _ _ _ _ _ _ hmem' hparts hart ⟨c, hnet, hsz⟩

theorem ssClasspathLibs_of_has (osName : String) :
    ∀ (libs : List LibEntry) (F : FS),
      (∀ lib ∈ libs, is_library_allowed lib osName = true →
        ∀ g a v tail, lib.nameParts = g :: a :: v :: tail →
          fsHas F (ssLibRelPath g a v) = true) →
      ssClasspathLibs osName F libs = manifestClasspathLibs osName libs := by
  intro libs
  induction libs with
  | nil =>
    intro F _
    rfl
  | cons l rest ih =>
    intro F hh
    have hrest := ih F (fun lib hm => hh lib (List.mem_cons_of_mem _ hm))
    by_cases hall : is_library_allowed l osName = true
    · rcases hp : l.nameParts with _ | ⟨g, _ | ⟨a, _ | ⟨v, tail⟩⟩⟩
      · simp [ssClasspathLibs, manifestClasspathLibs, hall, hp, hrest]
      · simp [ssClasspathLibs, manifestClasspathLibs, hall, hp, hrest]
      · simp [ssClasspathLibs, manifestClasspathLibs, hall, hp, hrest]
      · have hhas := hh l (List.mem_cons_self _ _) hall g a v tail hp
        simp [ssClasspathLibs, manifestClasspathLibs, hall, hp, hhas, hrest]
    · simp [ssClasspathLibs, manifestClasspathLibs, hall, hrest]

theorem nvFetchArtifact_none_creates (net : String → NetResult) (fs : FS) (p : String)
    (c : Content) (hnet : net ("https://libraries.minecraft.net/" ++ p) = NetResult.ok c) :
    fsHas (nvFetchArtifact net fs p none).1 p = true := by
  simp only [nvFetchArtifact]
  by_cases hh : fsHas fs p = true
  · rw [if_pos hh]
    exact hh
  · rw [if_neg hh]
    simp [hnet, fsHas, fsGet_write_self]

theorem nvInstallGo_classpath (osName : String) (net : String → NetResult) :
    ∀ (libs : List LibEntry) (fs : FS) (acc : List String),
      (∀ l ∈ libs, l.artifact = none) →
      (∀ l ∈ libs, ∃ g a v tail c, l.nameParts = g :: a :: v :: tail ∧
        net ("https://libraries.minecraft.net/" ++ nvLibRelPath g a v) = NetResult.ok c) →
      (nvInstallGo osName net fs acc libs).2 = acc ++ nvManifestClasspath osName libs := by
  intro libs
  induction libs with
  | nil =>
    intro fs acc _ _
    simp [nvInstallGo, nvManifestClasspath]
  | cons l rest ih =>
    intro fs acc hart hnet
    have hartl := hart l (List.mem_cons_self _ _)
    obtain ⟨g, a, v, tail, c, hp, hok⟩ := hnet l (List.mem_cons_self _ _)
    have hartr := fun l hm => hart l (List.mem_cons_of_mem _ hm)
    have hnetr := fun l hm => hnet l (List.mem_cons_of_mem _ hm)
    cases happ : apply_rules l.rules osName with
    | false =>
      have hproc : nvProcessLib osName net fs l = (fs, none) := by
        simp [nvProcessLib, happ]
      simp only [nvInstallGo, hproc]
      rw [ih fs (acc ++ none.toList) hartr hnetr]
      simp [nvManifestClasspath, happ]
    | true =>
      have hhas := nvFetchArtifact_none_creates net fs (nvLibRelPath g a v) c hok
      have hproc : nvProcessLib osName net fs l =
          ((nvFetchArtifact net fs (nvLibRelPath g a v) none).1,
            some (nvLibRelPath g a v)) := by
        simp [nvProcessLib, happ, hp, hartl, hhas]
      simp only [nvInstallGo, hproc]
      rw [ih _ _ hartr hnetr]
      simp [nvManifestClasspath, happ, hp]

/-! ## C8 -/

/-- C8: with well-formed coordinates (three name parts), no explicit
artifact paths, and all submitted downloads succeeding, the emitted
classpath equals the runtime JAR followed by exactly the rule-allowed
libraries in manifest declaration order, for EVERY completion order of
the concurrently fetched (submitted) libraries — and the sequential
`noobv0.py` loop likewise yields exactly the rule-allowed libraries in
manifest order (its runtime JAR is appended by `_prepare_and_launch`). -/
theorem C8_classpath_order_stable :
    (∀ (osName : String) (nets : LibEntry → Nat → NetResult) (fs0 : FS) (jar : String)
      (libs order : List LibEntry),
      (∀ l ∈ libs, l.artifact = none) →
      (∀ l ∈ libs, ∃ g a v tail, l.nameParts = g :: a :: v :: tail) →
      (∀ l ∈ libs, ∃ c, nets l 0 = NetResult.ok c ∧ c.size ≠ 0) →
      order.Perm (libs.filter (fun l => is_library_allowed l osName)) →
      ssClasspath osName (ssDownloadAll nets fs0 order) jar libs =
        manifestClasspath osName jar libs) ∧
    (∀ (osName : String) (net : String → NetResult) (fs0 : FS) (libs : List LibEntry),
      (∀ l ∈ libs, l.artifact = none) →
      (∀ l ∈ libs, ∃ g a v tail c, l.nameParts = g :: a :: v :: tail ∧
        net ("https://libraries.minecraft.net/" ++ nvLibRelPath g a v) = NetResult.ok c) →
      (nvInstallLibraries osName net fs0 libs).2 = nvManifestClasspath osName libs) := by
  constructor
  · intro osName nets fs0 jar libs order hart hparts hnet hperm
    unfold ssClasspath manifestClasspath
    congr 1
    apply ssClasspathLibs_of_has
    intro lib hm hall g a v tail hp
    have hmemf : lib ∈ libs.filter (fun l => is_library_allowed l osName) :=
      List.mem_filter.mpr ⟨hm, hall⟩
    have hmemo : lib ∈ order := hperm.mem_iff.mpr hmemf
    exact ssDownloadAll_creates nets order fs0 lib g a v tail hmemo hp (hart lib hm)
      (hnet lib hm)
  · intro osName net fs0 libs hart hnet
    simpa using nvInstallGo_classpath osName net libs fs0 [] hart hnet

/-- Witness for C8: a two-library manifest (one allowed, one disallowed
on linux) fetched through a pool completing in the submitted order. -/
theorem C8_classpath_order_stable_witness :
    ([libAW] : List LibEntry).Perm
      ([libAW, libBW].filter (fun l => is_library_allowed l "linux")) ∧
    ssClasspath "linux" (ssDownloadAll (fun _ _ => NetResult.ok ⟨3, 7⟩) [] [libAW])
      "v.jar" [libAW, libBW] = manifestClasspath "linux" "v.jar" [libAW, libBW] ∧
    (nvInstallLibraries "linux" (fun _ => NetResult.ok ⟨3, 7⟩) [] [libAW, libBW]).2 =
      nvManifestClasspath "linux" [libAW, libBW] :=
  ⟨by decide,
    C8_classpath_order_stable.1 "linux" (fun _ _ => NetResult.ok ⟨3, 7⟩) [] "v.jar"
      [libAW, libBW] [libAW]
      (by intro l hl; fin_cases hl <;> rfl)
      (by
        intro l hl
        fin_cases hl
        · exact ⟨"g", "a", "1", [], rfl⟩
        · exact ⟨"h", "b", "2", [], rfl⟩)
      (by intro l hl; exact ⟨⟨3, 7⟩, rfl, by decide⟩)
      (by decide),
    C8_classpath_order_stable.2 "linux" (fun _ => NetResult.ok ⟨3, 7⟩) [] [libAW, libBW]
      (by intro l hl; fin_cases hl <;> rfl)
      (by
        intro l hl
        fin_cases hl
        · exact ⟨"g", "a", "1", [], ⟨3, 7⟩, rfl, rfl⟩
        · exact ⟨"h", "b", "2", [], ⟨3, 7⟩, rfl, rfl⟩)⟩

theorem fabricLink_lookup_isSome (env : List (String × VInfo)) (v w : String)
    (h : fabricLink env v w = true) : ∃ i, lookupVersion env v = some i := by
  unfold fabricLink at h
  cases hl : lookupVersion env v with
  | none =>
    rw [hl] at h
    simp at h
  | some i => exact ⟨i, rfl⟩

theorem linksToB_head_lookup (env : List (String × VInfo)) (t : String) :
    ∀ (rest : List String) (v : String), linksToB env v rest t = true →
      ∃ i, lookupVersion env v = some i := by
  intro rest v h
  cases rest with
  | nil => exact fabricLink_lookup_isSome env v t h
  | cons w rest' =>
    simp only [linksToB, Bool.and_eq_true] at h
    exact fabricLink_lookup_isSome env v w h.1

/-- Core induction for C3: a chain of Fabric `mc_version` edges from `v`
into a version `t` already held in `downloaded_versions` makes
`download_version_files` fail, restoring the state; the failure is a
missing-file error at the chain's end, wrapped in the
vanilla-download-failed error one level up. -/
theorem dvf_cycle_aux (env : List (String × VInfo)) (t : String) :
    ∀ (rest : List String) (v : String) (info : VInfo) (st : RState) (fuel : Nat),
      linksToB env v rest t = true →
      lookupVersion env v = some info →
      (∃ ti, lookupVersion env t = some ti) →
      t ∈ st.downloaded →
      (∀ u ∈ v :: rest, u ∉ st.downloaded) →
      (∀ u ∈ v :: rest, jsonFile u ∉ st.files) →
      jsonFile t ∉ st.files →
      (v :: rest).Nodup →
      rest.length + 2 ≤ fuel →
      dvf env fuel v info st = (some (cycleErr rest), st) := by
  intro rest
  induction rest with
  | nil =>
    intro v info st fuel hlink hlook htlook htin hnotin hnofiles hjt hnd hfuel
    obtain ⟨f, rfl⟩ : ∃ f, fuel = f + 1 + 1 := ⟨fuel - 2, by omega⟩
    obtain ⟨tinfo, htl⟩ := htlook
    simp only [linksToB] at hlink
    unfold fabricLink at hlink
    rw [hlook] at hlink
    simp only [Bool.and_eq_true, beq_iff_eq] at hlink
    obtain ⟨⟨⟨hfab, hurl⟩, hfetch⟩, hmc⟩ := hlink
    have hv : v ∉ st.downloaded := hnotin v (List.mem_cons_self _ _)
    have hjv : jsonFile v ∉ st.files := hnofiles v (List.mem_cons_self _ _)
    simp [dvf, hv, hjv, hurl, hfetch, hfab, hmc, htl, hjt, htin,
      List.erase_cons_head, cycleErr]
  | cons w rest' ih =>
    intro v info st fuel hlink hlook htlook htin hnotin hnofiles hjt hnd hfuel
    obtain ⟨f, rfl⟩ : ∃ f, fuel = f + 1 := ⟨fuel - 1, by omega⟩
    simp only [linksToB, Bool.and_eq_true] at hlink
    obtain ⟨hfl, hrest⟩ := hlink
    unfold fabricLink at hfl
    rw [hlook] at hfl
    simp only [Bool.and_eq_true, beq_iff_eq] at hfl
    obtain ⟨⟨⟨hfab, hurl⟩, hfetch⟩, hmc⟩ := hfl
    obtain ⟨winfo, hwl⟩ := linksToB_head_lookup env t rest' w hrest
    have hv : v ∉ st.downloaded := hnotin v (List.mem_cons_self _ _)
    have hjv : jsonFile v ∉ st.files := hnofiles v (List.mem_cons_self _ _)
    have hjw : jsonFile w ∉ st.files := hnofiles w (by simp)
    have hvnotin : v ∉ w :: rest' := (List.nodup_cons.mp hnd).1
    have h2 : ∀ u ∈ w :: rest',
        u ∉ (RState.mk (v :: st.downloaded) st.files).downloaded := by
      intro u hu hmem
      rcases List.mem_cons.mp hmem with rfl | hmem2
      · exact hvnotin hu
      · exact hnotin u (List.mem_cons_of_mem _ hu) hmem2
    have h3 : ∀ u ∈ w :: rest',
        jsonFile u ∉ (RState.mk (v :: st.downloaded) st.files).files := by
      intro u hu
      exact hnofiles u (List.mem_cons_of_mem _ hu)
    have hih : dvf env f w winfo ⟨v :: st.downloaded, st.files⟩ =
        (some (cycleErr rest'), ⟨v :: st.downloaded, st.files⟩) :=
      ih w winfo ⟨v :: st.downloaded, st.files⟩ f hrest hwl htlook
        (List.mem_cons_of_mem _ htin) h2 h3 hjt (List.nodup_cons.mp hnd).2
        (by simp only [List.length_cons] at hfuel; omega)
    simp [dvf, hv, hjv, hjw, hurl, hfetch, hfab, hmc, hwl, hih,
      List.erase_cons_head, cycleErr]

/-! ## C3 -/

/-- C3 (amended): for every version whose Fabric inheritance chain
points back to itself (directly or transitively), with none of the
chain's version JSONs on disk, `download_version_files` of `noobv0.py`
terminates and fails — the same result for every sufficient fuel, never
the out-of-fuel marker — but the failure is NOT a typed CycleDetected
error: the recursion guard makes the re-entrant call return `True`, the
subsequent read of the still-missing parent JSON raises a generic
`FileNotFoundError` (wrapped in "Failed to download vanilla for Fabric"
for longer chains), and the `except` block turns it into `False`. -/
theorem C3_cyclic_chain_resolution (env : List (String × VInfo)) (v : String)
    (rest : List String) (info : VInfo) (files0 : List String) (fuel : Nat)
    (hcyc : linksToB env v rest v = true)
    (hlook : lookupVersion env v = some info)
    (hnd : (v :: rest).Nodup)
    (hnofiles : ∀ u ∈ v :: rest, jsonFile u ∉ files0)
    (hfuel : rest.length + 2 ≤ fuel) :
    dvf env fuel v info ⟨[], files0⟩ = (some (cycleErr rest), ⟨[], files0⟩) ∧
    cycleErr rest ≠ DlErr.cycleDetected ∧ cycleErr rest ≠ DlErr.outOfFuel := by
  refine ⟨?_, ?_, ?_⟩
  · cases rest with
    | nil =>
      obtain ⟨f, rfl⟩ : ∃ f, fuel = f + 1 + 1 := ⟨fuel - 2, by omega⟩
      simp only [linksToB] at hcyc
      unfold fabricLink at hcyc
      rw [hlook] at hcyc
      simp only [Bool.and_eq_true, beq_iff_eq] at hcyc
      obtain ⟨⟨⟨hfab, hurl⟩, hfetch⟩, hmc⟩ := hcyc
      have hjv : jsonFile v ∉ files0 := hnofiles v (List.mem_cons_self _ _)
      simp [dvf, hjv, hurl, hfetch, hfab, hmc, hlook, List.erase_cons_head, cycleErr]
    | cons w rest' =>
      obtain ⟨f, rfl⟩ : ∃ f, fuel = f + 1 := ⟨fuel - 1, by omega⟩
      simp only [linksToB, Bool.and_eq_true] at hcyc
      obtain ⟨hfl, hrest⟩ := hcyc
      unfold fabricLink at hfl
      rw [hlook] at hfl
      simp only [Bool.and_eq_true, beq_iff_eq] at hfl
      obtain ⟨⟨⟨hfab, hurl⟩, hfetch⟩, hmc⟩ := hfl
      obtain ⟨winfo, hwl⟩ := linksToB_head_lookup env v rest' w hrest
      have hjv : jsonFile v ∉ files0 := hnofiles v (List.mem_cons_self _ _)
      have hjw : jsonFile w ∉ files0 := hnofiles w (by simp)
      have hvnotin : v ∉ w :: rest' := (List.nodup_cons.mp hnd).1
      have h2 : ∀ u ∈ w :: rest',
          u ∉ (RState.mk [v] files0).downloaded := by
        intro u hu hmem
        rcases List.mem_cons.mp hmem with rfl | hmem2
        · exact hvnotin hu
        · cases hmem2
      have h3 : ∀ u ∈ w :: rest', jsonFile u ∉ (RState.mk [v] files0).files := by
        intro u hu
        exact hnofiles u (List.mem_cons_of_mem _ hu)
      have hih : dvf env f w winfo ⟨[v], files0⟩ =
          (some (cycleErr rest'), ⟨[v], files0⟩) :=
        dvf_cycle_aux env v rest' w winfo ⟨[v], files0⟩ f hrest hwl ⟨info, hlook⟩
          (List.mem_cons_self _ _) h2 h3 hjv (List.nodup_cons.mp hnd).2
          (by simp only [List.length_cons] at hfuel; omega)
      simp [dvf, hjv, hjw, hurl, hfetch, hfab, hmc, hlook, hwl, hih,
        List.erase_cons_head, cycleErr]
  · cases rest <;> simp [cycleErr]
  · cases rest <;> simp [cycleErr]

/-- C3 counterexample: the concrete direct self-cycle `A → A` on an
empty disk terminates with the generic missing-file error — there is no
CycleDetected outcome anywhere in the code; the claim's "fails with a
CycleDetected error" is false. -/
theorem C3_no_cycle_detected_counterexample :
    dvf envSelfW 3 "A" fabSelfW ⟨[], []⟩ = (some DlErr.fileNotFound, ⟨[], []⟩) ∧
    DlErr.fileNotFound ≠ DlErr.cycleDetected := by
  decide

/-- Witness for C3: the two-step cycle `A → B → A` on an empty disk. -/
theorem C3_cyclic_chain_resolution_witness :
    linksToB envABW "A" ["B"] "A" = true ∧
    dvf envABW 3 "A" fabABW ⟨[], []⟩ = (some (cycleErr ["B"]), ⟨[], []⟩) ∧
    cycleErr ["B"] ≠ DlErr.cycleDetected :=
  ⟨by decide,
    (C3_cyclic_chain_resolution envABW "A" ["B"] fabABW [] 3 (by decide) (by decide)
      (by decide) (by decide) (by decide)).1,
    (C3_cyclic_chain_resolution envABW "A" ["B"] fabABW [] 3 (by decide) (by decide)
      (by decide) (by decide) (by decide)).2.1⟩

/-! ## C10 -/

set_option maxRecDepth 10000 in
/-- C10 counterexample: the two `generate_offline_uuid` implementations
disagree already on the default username `Player`. -/
theorem C10_offline_uuid_disagreement_counterexample :
    nvOfflineUuid "Player" ≠ ssOfflineUuid "Player" := by
  decide

set_option maxRecDepth 10000 in
/-- C10 (amended): the two implementations compute different strings:
`noobv0.py` returns the MD5-based version-3 UUID of
`OfflinePlayer:Player` (36 characters), `samsoftbuild0a.py` returns the
full 40-hex-digit SHA-1 digest with dashes inserted (44 characters); on
username `Player` the results are as computed below and differ. -/
theorem C10_offline_uuid_values :
    nvOfflineUuid "Player" = "a01e3843-e521-3998-958a-f459800e4d11" ∧
    ssOfflineUuid "Player" = "3817fdaf-9c8a-d981-a3b8-ea8e4c43a0284ae1536a" ∧
    nvOfflineUuid "Player" ≠ ssOfflineUuid "Player" := by
  refine ⟨by decide, by decide, by decide⟩

end Launcher
